import Mathlib

/-!
# EarthquakeSignal — verification of the analysis pipeline

A shallow embedding of the EarthquakeSignal strong-motion analysis pipeline
(baseline correction, Arias intensity, Fourier analysis, Newmark-beta spectral
integration, RotD rotational combination) together with proofs of the
behavioural properties stated for it.

The repository snapshot ships only the example notebook and the README; the
core analyzer modules (`core/arias_intensity.py`, `core/base_line.py`,
`core/newmark_spectrum_analyzer.py`, `core/rotd_analyzer.py`,
`core/fourier_analyzer.py`, `models/earthquake_signal.py`) are not included.
Every definition below whose doc comment starts with `Modelled from the spec:`
is therefore reconstructed from the specification's algorithm descriptions,
with the notebook's access patterns fixing the externally visible shape
(result-dictionary keys, configuration flags).

Numbers are embedded as rationals.  The physical constants that are irrational
in the sources (π in the Arias factor, 2π in the angular frequency, cos/sin of
the rotation angles) enter only through their sign or through algebraic
identities, so they are carried as explicit rational-valued parameters; every
theorem quantifies over them, assuming only what the property needs
(positivity, or nothing at all).
-/

namespace EqSig

/-- Error taxonomy of the pipeline, modelled from the spec §7. -/
inductive AnalysisError where
  | insufficientData
  | degenerateSignal
  | channelMismatch
  | invalidIntegrationParameters
  | invalidPeriodGrid
deriving DecidableEq

/-! ## Generic list helpers used by several analyzers -/

/-- Running maximum of absolute values, seeded at `0` (the model of
`np.max(np.abs(x))` on a, possibly empty, series). -/
def maxAbs (l : List ℚ) : ℚ := l.foldl (fun m x => max m |x|) 0

/-! ## AriasAnalyzer -/

/-- Result record of the Arias analysis: cumulative intensity curve, total
intensity, significant-duration window and destructiveness index. -/
structure AriasResult where
  curve : List ℚ
  iaTotal : ℚ
  tStart : ℚ
  tEnd : ℚ
  potDest : ℚ
deriving DecidableEq

/-- Rectangular cumulative accumulation: element `i` of the output is
`s + cdt * (a_0² + ... + a_i²)` where `cdt` is the per-sample factor. -/
def ariasCumAux (cdt : ℚ) : ℚ → List ℚ → List ℚ
  | _, [] => []
  | s, x :: xs => (s + cdt * x ^ 2) :: ariasCumAux cdt (s + cdt * x ^ 2) xs

/-- Modelled from the spec: cumulative Arias intensity at sample `i` is
`c · Σ_{k=0..i} a_k² · dt` (rectangular accumulation), where `c` stands for
the physical factor π/(2g) combined with the unit conversion; `c` is kept as
a rational parameter since only its sign matters for any stated property. -/
def ariasCumulative (c dt : ℚ) (a : List ℚ) : List ℚ :=
  ariasCumAux (c * dt) 0 a

/-- Total Arias intensity: the value of the cumulative curve at its final
sample (`0` for an empty series). -/
def iaTotal (c dt : ℚ) (a : List ℚ) : ℚ :=
  (ariasCumulative c dt a).getLastD 0

/-- Modelled from the spec: the Arias analyzer.  Fails with
`degenerateSignal` when the total intensity is zero; otherwise reports the
cumulative curve, the total, the significant-duration window (`t_start` at the
first index whose cumulative intensity reaches 5 % of the total, `t_end` at
the first index reaching 95 %) and the destructiveness index
`total / significant duration` (zero when the window is empty). -/
def ariasAnalyzer (c dt : ℚ) (a : List ℚ) : Except AnalysisError AriasResult :=
  let cum := ariasCumulative c dt a
  let total := cum.getLastD 0
  if total = 0 then .error .degenerateSignal
  else
    let i05 := cum.findIdx (fun x => decide (5 / 100 * total ≤ x))
    let i95 := cum.findIdx (fun x => decide (95 / 100 * total ≤ x))
    .ok { curve := cum
          iaTotal := total
          tStart := (i05 : ℚ) * dt
          tEnd := (i95 : ℚ) * dt
          potDest := total / (((i95 : ℚ) - (i05 : ℚ)) * dt) }

/-! ## NewmarkSpectrumAnalyzer -/

/-- Newmark integration parameters, modelled from the spec §4.4 and the
configuration options of §6 (`damping_ratio`, `newmark_gamma`, `newmark_beta`,
plus the explicit stability-policy override flag). -/
structure NewmarkConfig where
  dampingRatio : ℚ
  gamma : ℚ
  beta : ℚ
  overrideStability : Bool
deriving DecidableEq

/-- One Newmark-beta update of the SDOF state `(u, v, a)` (relative
displacement, velocity, acceleration; unit mass, stiffness `ω²`, damping
`2ξω`) driven by the next effective force sample `pNext`. -/
def newmarkStep (om xi dt ga be : ℚ) (st : ℚ × ℚ × ℚ) (pNext : ℚ) : ℚ × ℚ × ℚ :=
  let u := st.1
  let v := st.2.1
  let a := st.2.2
  let k := om ^ 2
  let c := 2 * xi * om
  let keff := k + ga / (be * dt) * c + 1 / (be * dt ^ 2)
  let rhs := pNext + (1 / (be * dt ^ 2) * u + 1 / (be * dt) * v + (1 / (2 * be) - 1) * a)
    + c * (ga / (be * dt) * u + (ga / be - 1) * v + dt * (ga / (2 * be) - 1) * a)
  let u2 := rhs / keff
  let v2 := ga / (be * dt) * (u2 - u) + (1 - ga / be) * v + dt * (1 - ga / (2 * be)) * a
  let a2 := 1 / (be * dt ^ 2) * (u2 - u) - 1 / (be * dt) * v - (1 / (2 * be) - 1) * a
  (u2, v2, a2)

/-- Displacement history of the stepped recurrence, starting from state
`st` and consuming one force sample per step. -/
def newmarkDispAux (om xi dt ga be : ℚ) : ℚ × ℚ × ℚ → List ℚ → List ℚ
  | _, [] => []
  | st, p :: ps =>
      let st2 := newmarkStep om xi dt ga be st p
      st2.1 :: newmarkDispAux om xi dt ga be st2 ps

/-- Modelled from the spec: relative-displacement history of a unit-mass SDOF
oscillator under ground acceleration `ag` (effective force `-ag`, initial
rest state, initial acceleration balancing the first force sample). -/
def newmarkDisplacements (om xi dt ga be : ℚ) (ag : List ℚ) : List ℚ :=
  match ag with
  | [] => []
  | a0 :: rest => 0 :: newmarkDispAux om xi dt ga be (0, 0, -a0) (rest.map (fun x => -x))

/-- Modelled from the spec: pseudo-spectral acceleration ordinate at period
`T`: `ω² · max|u|` with `ω = 2π/T` for `T > 0`, and the PGA
(maximum absolute ground acceleration) at the `T = 0` grid point, which the
spec uses as the spectrum's first point.  `twoPi` carries the rational
stand-in for the irrational constant 2π. -/
def psaOrdinate (twoPi : ℚ) (cfg : NewmarkConfig) (dt : ℚ) (ag : List ℚ) (T : ℚ) : ℚ :=
  if T = 0 then maxAbs ag
  else
    let om := twoPi / T
    om ^ 2 * maxAbs (newmarkDisplacements om cfg.dampingRatio dt cfg.gamma cfg.beta ag)

/-- The unconditionally stable region of Newmark parameters:
`β ≥ 1/4` and `γ ≥ 1/2`. -/
def stableNewmarkParams (ga be : ℚ) : Bool :=
  decide (1 / 4 ≤ be) && decide (1 / 2 ≤ ga)

/-- A valid requested period grid: strictly ascending, non-negative (the
leading `T = 0` entry is the PGA point of the spectrum). -/
def validPeriodGrid : List ℚ → Bool
  | [] => true
  | [t] => decide (0 ≤ t)
  | t1 :: t2 :: ts => decide (0 ≤ t1) && decide (t1 < t2) && validPeriodGrid (t2 :: ts)

/-- Modelled from the spec: the Newmark spectrum analyzer.  Validates the
integration parameters (unless the caller overrode the stability policy),
then the period grid, then returns the period axis paired with the
pseudo-spectral acceleration curve. -/
def newmarkAnalyzer (twoPi : ℚ) (cfg : NewmarkConfig) (dt : ℚ) (grid : List ℚ)
    (ag : List ℚ) : Except AnalysisError (List ℚ × List ℚ) :=
  if !(stableNewmarkParams cfg.gamma cfg.beta || cfg.overrideStability) then
    .error .invalidIntegrationParameters
  else if !validPeriodGrid grid then
    .error .invalidPeriodGrid
  else
    .ok (grid, grid.map (psaOrdinate twoPi cfg dt ag))

/-! ## RotDAnalyzer -/

/-- Rotated horizontal time series `H1·cos θ + H2·sin θ`; the direction is
carried as the pair `(cos θ, sin θ)`. -/
def rotatedSeries (cosv sinv : ℚ) (h1 h2 : List ℚ) : List ℚ :=
  List.zipWith (fun x y => x * cosv + y * sinv) h1 h2

/-- Per-angle spectral values at one period: the Newmark ordinate of each
rotated series of the angular grid `dirs` (a list of `(cos θ, sin θ)`
pairs). -/
def rotdValuesAt (twoPi : ℚ) (cfg : NewmarkConfig) (dt : ℚ) (dirs : List (ℚ × ℚ))
    (h1 h2 : List ℚ) (T : ℚ) : List ℚ :=
  dirs.map (fun d => psaOrdinate twoPi cfg dt (rotatedSeries d.1 d.2 h1 h2) T)

/-- Maximum of a list of spectral values, seeded at `0` (values are
non-negative, so this is the model of `np.max`). -/
def listMax (l : List ℚ) : ℚ := l.foldl max 0

/-- Median by sorting: middle element for odd length, mean of the two middle
elements for even length, `0` for the empty list. -/
def median (l : List ℚ) : ℚ :=
  let s := List.insertionSort (· ≤ ·) l
  if l.length % 2 = 1 then s.getD (l.length / 2) 0
  else (s.getD (l.length / 2 - 1) 0 + s.getD (l.length / 2) 0) / 2

/-- RotD50 at one period: the median of the per-angle spectral values. -/
def rotd50At (twoPi : ℚ) (cfg : NewmarkConfig) (dt : ℚ) (dirs : List (ℚ × ℚ))
    (h1 h2 : List ℚ) (T : ℚ) : ℚ :=
  median (rotdValuesAt twoPi cfg dt dirs h1 h2 T)

/-- RotD100 at one period: the maximum of the per-angle spectral values. -/
def rotd100At (twoPi : ℚ) (cfg : NewmarkConfig) (dt : ℚ) (dirs : List (ℚ × ℚ))
    (h1 h2 : List ℚ) (T : ℚ) : ℚ :=
  listMax (rotdValuesAt twoPi cfg dt dirs h1 h2 T)

/-- Modelled from the spec: the RotD analyzer.  Checks the two horizontal
channels for equal length (`channelMismatch` otherwise) and returns the
shared period axis with the RotD50 and RotD100 curves. -/
def rotdAnalyzer (twoPi : ℚ) (cfg : NewmarkConfig) (dt : ℚ) (dirs : List (ℚ × ℚ))
    (grid : List ℚ) (h1 h2 : List ℚ) :
    Except AnalysisError (List ℚ × List ℚ × List ℚ) :=
  if h1.length ≠ h2.length then .error .channelMismatch
  else
    .ok (grid,
         grid.map (rotd50At twoPi cfg dt dirs h1 h2),
         grid.map (rotd100At twoPi cfg dt dirs h1 h2))

/-! ## BaselineCorrector -/

/-- Dot product of two coefficient lists (trailing entries of the longer list
are ignored). -/
def dotList (a b : List ℚ) : ℚ := (List.zipWith (· * ·) a b).sum

/-- Forward Gaussian elimination on augmented rows, fuelled by the row count;
each step keeps the pivot row and eliminates the leading column from the
remaining rows (dropping that column), producing a staircase of rows of
decreasing length. -/
def gaussFwdAux : ℕ → List (List ℚ) → List (List ℚ)
  | _, [] => []
  | 0, rows => rows
  | n + 1, r :: rs =>
      let p := r.headD 0
      r :: gaussFwdAux n
        (rs.map (fun q => (List.zipWith (fun a b => a - q.headD 0 / p * b) q r).tail))

/-- Forward elimination entry point. -/
def gaussForward (rows : List (List ℚ)) : List (List ℚ) :=
  gaussFwdAux rows.length rows

/-- Back substitution on the staircase rows produced by `gaussForward`:
each row is `pivot :: coeffs ++ [rhs]` over the later variables. -/
def backSub : List (List ℚ) → List ℚ
  | [] => []
  | row :: rest =>
      let xs := backSub rest
      (((row.getLastD 0) - dotList row.tail.dropLast xs) / row.headD 0) :: xs

/-- Solve the linear system `m · x = b` by Gaussian elimination with back
substitution (total: a singular pivot divides by zero, which yields `0`
in `ℚ`; the normal equations of a least-squares fit on distinct sample
instants are non-singular). -/
def gaussSolve (m : List (List ℚ)) (b : List ℚ) : List ℚ :=
  backSub (gaussForward (List.zipWith (fun row bi => row ++ [bi]) m b))

/-- Least-squares polynomial fit of degree `d` through the points
`(ts_i, ys_i)`, via the normal equations `AᵀA x = Aᵀy` of the Vandermonde
design matrix. -/
def polyfit (d : ℕ) (ts ys : List ℚ) : List ℚ :=
  let rows := ts.map (fun t => (List.range (d + 1)).map (fun j => t ^ j))
  let ata := (List.range (d + 1)).map (fun i =>
    (List.range (d + 1)).map (fun j =>
      (rows.map (fun r => r.getD i 0 * r.getD j 0)).sum))
  let aty := (List.range (d + 1)).map (fun i =>
    (List.zipWith (fun r y => r.getD i 0 * y) rows ys).sum)
  gaussSolve ata aty

/-- Evaluate the polynomial with coefficient list `coeffs` (index = power)
at `t`. -/
def polyEval (coeffs : List ℚ) (t : ℚ) : ℚ :=
  (List.zipWith (fun c j => c * t ^ j) coeffs (List.range coeffs.length)).sum

/-- Modelled from the spec: the baseline corrector fits a polynomial of the
configured degree to the raw series over the sample instants `i·dt` by least
squares and subtracts the fitted trend; a series with fewer samples than
`degree + 1` fails with `insufficientData`. -/
def baselineCorrect (degree : ℕ) (dt : ℚ) (a : List ℚ) :
    Except AnalysisError (List ℚ) :=
  if a.length < degree + 1 then .error .insufficientData
  else
    let ts := List.map (fun (i : ℕ) => (i : ℚ) * dt) (List.range a.length)
    let coeffs := polyfit degree ts a
    .ok (List.zipWith (fun x t => x - polyEval coeffs t) a ts)

/-! ## FourierAnalyzer -/

/-- Fourier result record: one-sided frequency axis, amplitude spectrum and
dominant periods. -/
structure FourierResult where
  freqs : List ℚ
  amps : List ℚ
  dominantPeriods : List ℚ
deriving DecidableEq

/-- Modelled from the spec: the Fourier analyzer.  The DFT amplitude at each
one-sided bin is an irrational trigonometric sum of the samples, so the bin
amplitudes enter the model through the oracle `amp`; the frequency axis
(`k/(N·dt)` for `k = 0 .. N/2`), the peak search (local maxima above the
noise floor, DC bin excluded), the descending sort by amplitude and the
truncation to `peakCount` follow the spec. -/
def fourierAnalyzer (dt : ℚ) (amp : ℕ → ℚ) (peakCount : ℕ) (noiseFloor : ℚ)
    (a : List ℚ) : FourierResult :=
  let n := a.length
  let nbins := n / 2 + 1
  let amps := (List.range nbins).map amp
  let floorv := noiseFloor * listMax amps
  let peaks := (List.range nbins).filter (fun k =>
    decide (1 ≤ k) && decide (amp (k - 1) < amp k) && decide (amp (k + 1) ≤ amp k) &&
      decide (floorv ≤ amp k))
  let ranked := List.insertionSort (fun i j => amp j ≤ amp i) peaks
  { freqs := (List.range nbins).map (fun k => (k : ℚ) / ((n : ℚ) * dt))
    amps := amps
    dominantPeriods := (ranked.take peakCount).map (fun k => ((n : ℚ) * dt) / (k : ℚ)) }

/-! ## Pipeline and the EarthquakeSignal aggregate -/

/-- Pipeline configuration, mirroring the notebook's config dictionary for
the stage flags and the spec §6 for the algorithm options.  `ariasFactor`
and `twoPi` carry the rational stand-ins for π/(2g) and 2π; the angular grid
is carried as `(cos θ, sin θ)` pairs. -/
structure Config where
  unit_factor : ℚ
  apply_baseline_correction : Bool
  apply_arias_analysis : Bool
  apply_fourier_analysis : Bool
  compute_newmark_spectra : Bool
  compute_rotd : Bool
  baseline_polynomial_degree : ℕ
  ariasFactor : ℚ
  newmark : NewmarkConfig
  twoPi : ℚ
  period_grid : List ℚ
  rotation_dirs : List (ℚ × ℚ)
  fourier_peak_count : ℕ
  fourier_noise_floor : ℚ

/-- The per-recording aggregate: raw signals plus one optional result slot
per analyzer stage (`none` exactly when the stage was not run). -/
structure EarthquakeSignalAgg where
  name : String
  dt : ℚ
  signals : List (String × List ℚ)
  corrected : Option (List (String × List ℚ))
  arias : Option (List (String × AriasResult))
  fourier : Option (List (String × FourierResult))
  newmark_spectra : Option (List (String × (List ℚ × List ℚ)))
  rotd : Option (List ℚ × List ℚ × List ℚ)

/-- Apply a fallible analyzer to every labelled channel, propagating the
first failure. -/
def mapChannelsM (f : List ℚ → Except AnalysisError β) :
    List (String × List ℚ) → Except AnalysisError (List (String × β))
  | [] => .ok []
  | (nm, s) :: rest => do
      let r ← f s
      let rs ← mapChannelsM f rest
      .ok ((nm, r) :: rs)

/-- Baseline stage: corrects every channel when the flag is set, otherwise
leaves the slot empty. -/
def baselineStage (cfg : Config) (dt : ℚ) (chans : List (String × List ℚ)) :
    Except AnalysisError (Option (List (String × List ℚ))) :=
  if cfg.apply_baseline_correction then
    (mapChannelsM (baselineCorrect cfg.baseline_polynomial_degree dt) chans).map some
  else .ok none

/-- Arias stage over the working (corrected when available) channels. -/
def ariasStage (cfg : Config) (dt : ℚ) (working : List (String × List ℚ)) :
    Except AnalysisError (Option (List (String × AriasResult))) :=
  if cfg.apply_arias_analysis then
    (mapChannelsM (ariasAnalyzer (cfg.ariasFactor * cfg.unit_factor ^ 2) dt)
      working).map some
  else .ok none

/-- Fourier stage over the working channels (total, no failure mode). -/
def fourierStage (cfg : Config) (dt : ℚ) (amp : ℕ → ℚ)
    (working : List (String × List ℚ)) : Option (List (String × FourierResult)) :=
  if cfg.apply_fourier_analysis then
    some (working.map (fun p =>
      (p.1, fourierAnalyzer dt amp cfg.fourier_peak_count cfg.fourier_noise_floor p.2)))
  else none

/-- Newmark spectrum stage over the working channels. -/
def newmarkStage (cfg : Config) (dt : ℚ) (working : List (String × List ℚ)) :
    Except AnalysisError (Option (List (String × (List ℚ × List ℚ)))) :=
  if cfg.compute_newmark_spectra then
    (mapChannelsM (newmarkAnalyzer cfg.twoPi cfg.newmark dt cfg.period_grid)
      working).map some
  else .ok none

/-- RotD stage: requires both horizontal channels of the working set. -/
def rotdStage (cfg : Config) (dt : ℚ) (working : List (String × List ℚ)) :
    Except AnalysisError (Option (List ℚ × List ℚ × List ℚ)) :=
  if cfg.compute_rotd then
    match working.lookup ("H1"), working.lookup ("H2") with
    | some h1, some h2 =>
        (rotdAnalyzer cfg.twoPi cfg.newmark dt cfg.rotation_dirs cfg.period_grid
          h1 h2).map some
    | _, _ => .error .channelMismatch
  else .ok none

/-- Modelled from the spec: the single-recording pipeline.  Runs each stage
exactly when its config flag is set (baseline first; the later stages consume
the corrected channels when correction ran, the raw ones otherwise; RotD
consumes the two horizontal channels), fails fast on the first analyzer
error, and assembles the aggregate once, with `none` in the slot of every
stage that was not run. -/
def pipeline (cfg : Config) (name : String) (dt : ℚ)
    (chans : List (String × List ℚ)) (amp : ℕ → ℚ) :
    Except AnalysisError EarthquakeSignalAgg := do
  let corrected ← baselineStage cfg dt chans
  let working := corrected.getD chans
  let arias ← ariasStage cfg dt working
  let fourier := fourierStage cfg dt amp working
  let spectra ← newmarkStage cfg dt working
  let rotd ← rotdStage cfg dt working
  pure { name := name, dt := dt, signals := chans, corrected := corrected
         arias := arias, fourier := fourier, newmark_spectra := spectra, rotd := rotd }

/-! ## Dictionary views of the results

The notebook reads every result as a string-keyed mapping
(`record.arias['H1']['t_start']`, `eq.newmark_spectra['H1']['PSa']`,
`eq.rotd['ROTD100']`, ...); these views model those dictionaries as
association lists over a sum of scalar and array values. -/

/-- A value stored in a result dictionary: a scalar or an array. -/
inductive Val where
  | num : ℚ → Val
  | arr : List ℚ → Val
deriving DecidableEq

/-- Dictionary view of an `AriasResult`, with the keys the notebook reads. -/
def ariasDict (r : AriasResult) : List (String × Val) :=
  [("IA", Val.arr r.curve), ("t_start", Val.num r.tStart), ("t_end", Val.num r.tEnd),
   ("IA_total", Val.num r.iaTotal), ("pot_dest", Val.num r.potDest)]

/-- Dictionary view of a `FourierResult`. -/
def fourierDict (r : FourierResult) : List (String × Val) :=
  [("frequencies", Val.arr r.freqs), ("amplitudes", Val.arr r.amps),
   ("dominant_periods", Val.arr r.dominantPeriods)]

/-- Dictionary view of one channel's Newmark spectrum `(T, PSa)`. -/
def spectrumDict (r : List ℚ × List ℚ) : List (String × Val) :=
  [("T", Val.arr r.1), ("PSa", Val.arr r.2)]

/-- Dictionary view of the RotD result `(T, RotD50, RotD100)`. -/
def rotdDict (r : List ℚ × List ℚ × List ℚ) : List (String × Val) :=
  [("T", Val.arr r.1), ("ROTD50", Val.arr r.2.1), ("ROTD100", Val.arr r.2.2)]

/-! ## Concrete example data (used by witnesses and counterexamples) -/

/-- A concrete pipeline configuration mirroring the notebook's config cell:
baseline, Arias, Fourier and Newmark stages enabled, RotD disabled
(`'compute_rotd': False`), unit factor 981. -/
def exampleConfig : Config :=
  { unit_factor := 981
    apply_baseline_correction := true
    apply_arias_analysis := true
    apply_fourier_analysis := true
    compute_newmark_spectra := true
    compute_rotd := false
    baseline_polynomial_degree := 1
    ariasFactor := 16 / 100
    newmark := { dampingRatio := 1 / 20, gamma := 1 / 2, beta := 1 / 4,
                 overrideStability := false }
    twoPi := 628 / 100
    period_grid := [0]
    rotation_dirs := [(1, 0)]
    fourier_peak_count := 5
    fourier_noise_floor := 1 / 10 }

/-- The same configuration with the RotD stage enabled. -/
def exampleConfigFull : Config := { exampleConfig with compute_rotd := true }

/-- A tiny two-channel recording. -/
def exampleChans : List (String × List ℚ) := [("H1", [0, 1, 0]), ("H2", [1, 0, 1])]

/-- The Arias result of the analyzer on the one-sample signal `[1]`. -/
def ariasUnitResult : AriasResult :=
  { curve := [1], iaTotal := 1, tStart := 0, tEnd := 0, potDest := 0 }

/-- The Arias result on `[1, 0, 0]` with `c = dt = 1`: the whole intensity
arrives at the first sample, so both window ends sit at time `0`. -/
def ariasSpikeResult : AriasResult :=
  { curve := [1, 1, 1], iaTotal := 1, tStart := 0, tEnd := 0, potDest := 0 }

/-- The Arias result on `[0, 1, 0]` with `c = dt = 1`. -/
def ariasMidResult : AriasResult :=
  { curve := [0, 1, 1], iaTotal := 1, tStart := 1, tEnd := 1, potDest := 0 }

/-- The Arias result of each corrected channel of `exampleChans` in the
example pipeline run (both channels square to the same series). -/
def exampleAriasResult : AriasResult :=
  { curve := [106929 / 625, 106929 / 125, 641574 / 625]
    iaTotal := 641574 / 625
    tStart := 0
    tEnd := 1 / 50
    potDest := 1283148 / 25 }

/-- The Fourier result of each channel of the example pipeline run under the
all-zero amplitude oracle. -/
def exampleFourierResult : FourierResult :=
  { freqs := [0, 100 / 3], amps := [0, 0], dominantPeriods := [] }

/-- The aggregate produced by the example pipeline run under the notebook's
flags: every stage result present except RotD, whose slot is empty. -/
def exampleAgg : EarthquakeSignalAgg :=
  { name := "APED"
    dt := 1 / 100
    signals := exampleChans
    corrected := some [("H1", [-1/3, 2/3, -1/3]), ("H2", [1/3, -2/3, 1/3])]
    arias := some [("H1", exampleAriasResult), ("H2", exampleAriasResult)]
    fourier := some [("H1", exampleFourierResult), ("H2", exampleFourierResult)]
    newmark_spectra := some [("H1", ([0], [2/3])), ("H2", ([0], [2/3]))]
    rotd := none }

/-- The aggregate of the example pipeline run with every stage enabled. -/
def exampleAggFull : EarthquakeSignalAgg :=
  { exampleAgg with rotd := some ([0], [2/3], [2/3]) }

/-! ## Helper lemmas -/

/-- Peeling one `Except` bind that succeeded. -/
theorem exceptBind_ok {ε α β : Type} {x : Except ε α} {f : α → Except ε β} {b : β}
    (h : (x >>= f) = .ok b) : ∃ a, x = .ok a ∧ f a = .ok b := by
  cases x with
  | error e => simp [Bind.bind, Except.bind] at h
  | ok a => exact ⟨a, rfl, by simpa [Bind.bind, Except.bind] using h⟩

theorem ariasCumAux_length (cdt : ℚ) (s : ℚ) (xs : List ℚ) :
    (ariasCumAux cdt s xs).length = xs.length := by
  induction xs generalizing s with
  | nil => rfl
  | cons x xs ih => simp [ariasCumAux, ih]

theorem ariasCumAux_chain (cdt : ℚ) (hcdt : 0 ≤ cdt) (s : ℚ) (xs : List ℚ) :
    List.Chain (· ≤ ·) s (ariasCumAux cdt s xs) := by
  induction xs generalizing s with
  | nil => exact List.Chain.nil
  | cons x xs ih =>
      refine List.Chain.cons ?_ (ih _)
      have : 0 ≤ cdt * x ^ 2 := mul_nonneg hcdt (sq_nonneg x)
      linarith

theorem ariasCumAux_le_mem (cdt : ℚ) (hcdt : 0 ≤ cdt) (s : ℚ) (xs : List ℚ) :
    ∀ y ∈ ariasCumAux cdt s xs, s ≤ y := by
  induction xs generalizing s with
  | nil => intro y hy; simp [ariasCumAux] at hy
  | cons x xs ih =>
      intro y hy
      have hstep : 0 ≤ cdt * x ^ 2 := mul_nonneg hcdt (sq_nonneg x)
      rcases List.mem_cons.mp hy with h | h
      · subst h; linarith
      · have := ih (s + cdt * x ^ 2) y h; linarith

theorem getLastD_zero_nonneg {l : List ℚ} (h : ∀ y ∈ l, 0 ≤ y) : 0 ≤ l.getLastD 0 := by
  cases l with
  | nil => simp
  | cons a l =>
      have hm : (a :: l).getLast (by simp) ∈ a :: l := List.getLast_mem _
      have : (a :: l).getLastD 0 = (a :: l).getLast (by simp) := by
        rw [List.getLastD_eq_getLast?, List.getLast?_eq_getLast (a :: l) (by simp)]
        rfl
      rw [this]
      exact h _ hm

theorem iaTotal_nonneg (c dt : ℚ) (hc : 0 ≤ c) (hdt : 0 ≤ dt) (a : List ℚ) :
    0 ≤ iaTotal c dt a :=
  getLastD_zero_nonneg (ariasCumAux_le_mem (c * dt) (mul_nonneg hc hdt) 0 a)

theorem findIdx_le_findIdx_of_imp {α : Type} (p q : α → Bool)
    (himp : ∀ x, q x = true → p x = true) (l : List α) :
    l.findIdx p ≤ l.findIdx q := by
  induction l with
  | nil => simp
  | cons x xs ih =>
      by_cases hq : q x = true
      · simp [List.findIdx_cons, himp x hq, hq]
      · rw [List.findIdx_cons, List.findIdx_cons, Bool.eq_false_iff.mpr hq]
        cases hp : p x with
        | true => simp
        | false => simpa using ih

/-- Claim C1: spec-modelled — for every input accepted by the Arias analyzer
(non-negative intensity factor and sample interval), the cumulative intensity
curve it returns is monotonically non-decreasing, its value at the final
sample equals the reported total intensity, and that total is
non-negative. -/
theorem ariasAnalyzer_cumulative_monotone_and_total (c dt : ℚ) (a : List ℚ)
    (hc : 0 ≤ c) (hdt : 0 ≤ dt) (r : AriasResult)
    (h : ariasAnalyzer c dt a = .ok r) :
    List.Chain' (· ≤ ·) r.curve ∧ r.curve.getLastD 0 = r.iaTotal ∧ 0 ≤ r.iaTotal := by
  have hcdt : 0 ≤ c * dt := mul_nonneg hc hdt
  simp only [ariasAnalyzer] at h
  split at h
  · exact absurd h (by simp)
  · injection h with h
    subst h
    refine ⟨?_, rfl, ?_⟩
    · exact List.Chain'.tail
        (show List.Chain' (· ≤ ·) (0 :: ariasCumAux (c * dt) 0 a) from
          ariasCumAux_chain (c * dt) hcdt 0 a)
    · exact getLastD_zero_nonneg (ariasCumAux_le_mem (c * dt) hcdt 0 a)

/-- Witness for C1 at `c = dt = 1`, `a = [1]`. -/
theorem ariasAnalyzer_cumulative_monotone_and_total_witness :
    List.Chain' (· ≤ ·) ariasUnitResult.curve ∧
      ariasUnitResult.curve.getLastD 0 = ariasUnitResult.iaTotal ∧
      0 ≤ ariasUnitResult.iaTotal :=
  ariasAnalyzer_cumulative_monotone_and_total 1 1 [1] (by norm_num) (by norm_num)
    ariasUnitResult
    (by norm_num [ariasAnalyzer, ariasCumulative, ariasCumAux, ariasUnitResult,
      List.findIdx, List.findIdx.go])

/-- Claim C5: spec-modelled — the Arias analyzer fails with the degenerate
signal error exactly when the total intensity is zero, and in particular the
3-sample all-zero signal at `dt = 1/100` is rejected. -/
theorem ariasAnalyzer_degenerate_iff_total_zero (c dt : ℚ) (a : List ℚ) :
    (ariasAnalyzer c dt a = .error .degenerateSignal ↔ iaTotal c dt a = 0) ∧
      ariasAnalyzer c (1 / 100) [0, 0, 0] = .error .degenerateSignal := by
  constructor
  · simp only [ariasAnalyzer, iaTotal]
    split
    · rename_i htot
      simpa using htot
    · rename_i htot
      constructor
      · intro h; exact absurd h (by simp)
      · intro h; exact absurd h htot
  · norm_num [ariasAnalyzer, ariasCumulative, ariasCumAux]

/-- Claim C4, counterexample: on the non-degenerate signal `[1, 0, 0]` with
`c = dt = 1` the whole intensity arrives with the first sample, so the 5 %
and the 95 % thresholds are both first reached at index 0 and
`t_start = t_end = 0`, refuting the strict inequality `t_start < t_end`. -/
theorem arias_window_strict_cex :
    ariasAnalyzer 1 1 [1, 0, 0] = .ok ariasSpikeResult ∧
      ¬ ariasSpikeResult.tStart < ariasSpikeResult.tEnd := by
  constructor
  · norm_num [ariasAnalyzer, ariasCumulative, ariasCumAux, ariasSpikeResult,
      List.findIdx, List.findIdx.go]
  · simp [ariasSpikeResult]

/-- Claim C4, amended: spec-modelled — for every non-degenerate Arias result,
`t_start` is the time of the first index whose cumulative intensity reaches
5 % of the total, `t_end` the time of the first index reaching 95 %, and
`0 ≤ t_start ≤ t_end ≤ (N-1)·dt` (the two window ends coincide when a single
sample carries the span from below 5 % to 95 % of the intensity, so the
strict inequality is weakened to `≤`). -/
theorem ariasAnalyzer_duration_window_bounds (c dt : ℚ) (a : List ℚ)
    (hc : 0 ≤ c) (hdt : 0 ≤ dt) (r : AriasResult)
    (h : ariasAnalyzer c dt a = .ok r) :
    r.tStart = (r.curve.findIdx (fun x => decide (5 / 100 * r.iaTotal ≤ x)) : ℚ) * dt ∧
      r.tEnd = (r.curve.findIdx (fun x => decide (95 / 100 * r.iaTotal ≤ x)) : ℚ) * dt ∧
      0 ≤ r.tStart ∧ r.tStart ≤ r.tEnd ∧ r.tEnd ≤ ((a.length - 1 : ℕ) : ℚ) * dt := by
  have hcdt : 0 ≤ c * dt := mul_nonneg hc hdt
  simp only [ariasAnalyzer] at h
  split at h
  · exact absurd h (by simp)
  · rename_i htot
    injection h with h
    subst h
    set cum := ariasCumulative c dt a with hcum
    have htotnn : 0 ≤ cum.getLastD 0 :=
      getLastD_zero_nonneg (ariasCumAux_le_mem (c * dt) hcdt 0 a)
    have htotpos : 0 < cum.getLastD 0 := lt_of_le_of_ne htotnn (Ne.symm htot)
    have hne : cum ≠ [] := by
      intro hnil
      rw [hnil] at htot
      exact htot rfl
    have hlast : cum.getLastD 0 = cum.getLast hne := by
      rw [List.getLastD_eq_getLast?, List.getLast?_eq_getLast cum hne]
      rfl
    have hex : ∃ x ∈ cum, (fun x => decide (95 / 100 * cum.getLastD 0 ≤ x)) x := by
      refine ⟨cum.getLast hne, List.getLast_mem hne, ?_⟩
      simp only [decide_eq_true_eq]
      rw [← hlast]
      linarith
    have hi95lt : cum.findIdx (fun x => decide (95 / 100 * cum.getLastD 0 ≤ x)) <
        cum.length := List.findIdx_lt_length_of_exists hex
    have hlen : cum.length = a.length := by
      rw [hcum]
      exact ariasCumAux_length (c * dt) 0 a
    have hle : cum.findIdx (fun x => decide (5 / 100 * cum.getLastD 0 ≤ x)) ≤
        cum.findIdx (fun x => decide (95 / 100 * cum.getLastD 0 ≤ x)) := by
      refine findIdx_le_findIdx_of_imp _ _ ?_ cum
      intro x hx
      simp only [decide_eq_true_eq] at hx ⊢
      linarith
    refine ⟨rfl, rfl, ?_, ?_, ?_⟩
    · exact mul_nonneg (Nat.cast_nonneg _) hdt
    · exact mul_le_mul_of_nonneg_right (by exact_mod_cast hle) hdt
    · have h95 : cum.findIdx (fun x => decide (95 / 100 * cum.getLastD 0 ≤ x)) ≤
          a.length - 1 := by omega
      exact mul_le_mul_of_nonneg_right (by exact_mod_cast h95) hdt

/-- Witness for the amended C4 at `c = dt = 1`, `a = [0, 1, 0]`. -/
theorem ariasAnalyzer_duration_window_bounds_witness :
    ariasMidResult.tStart =
        (ariasMidResult.curve.findIdx
          (fun x => decide (5 / 100 * ariasMidResult.iaTotal ≤ x)) : ℚ) * 1 ∧
      ariasMidResult.tEnd =
        (ariasMidResult.curve.findIdx
          (fun x => decide (95 / 100 * ariasMidResult.iaTotal ≤ x)) : ℚ) * 1 ∧
      0 ≤ ariasMidResult.tStart ∧ ariasMidResult.tStart ≤ ariasMidResult.tEnd ∧
      ariasMidResult.tEnd ≤ ((([(0 : ℚ), 1, 0].length - 1 : ℕ)) : ℚ) * 1 :=
  ariasAnalyzer_duration_window_bounds 1 1 [0, 1, 0] (by norm_num) (by norm_num)
    ariasMidResult
    (by norm_num [ariasAnalyzer, ariasCumulative, ariasCumAux, ariasMidResult,
      List.findIdx, List.findIdx.go])

theorem le_foldl_maxAbs (l : List ℚ) (s : ℚ) :
    s ≤ l.foldl (fun m x => max m |x|) s := by
  induction l generalizing s with
  | nil => simp
  | cons x xs ih => exact le_trans (le_max_left s |x|) (ih _)

theorem maxAbs_nonneg (l : List ℚ) : 0 ≤ maxAbs l := le_foldl_maxAbs l 0

theorem psaOrdinate_nonneg (twoPi : ℚ) (cfg : NewmarkConfig) (dt : ℚ) (ag : List ℚ)
    (T : ℚ) : 0 ≤ psaOrdinate twoPi cfg dt ag T := by
  unfold psaOrdinate
  split
  · exact maxAbs_nonneg ag
  · exact mul_nonneg (sq_nonneg _) (maxAbs_nonneg _)

/-- Claim C3: spec-modelled — a successful Newmark spectrum run returns the
requested period axis, a pseudo-spectral acceleration curve of the same
length with non-negative ordinates, and when the grid starts at the
period-zero point its first spectral ordinate is the PGA, the maximum
absolute value of the corrected acceleration series. -/
theorem newmarkAnalyzer_spectrum_shape (twoPi : ℚ) (cfg : NewmarkConfig) (dt : ℚ)
    (grid ag ts psa : List ℚ)
    (h : newmarkAnalyzer twoPi cfg dt grid ag = .ok (ts, psa)) :
    ts = grid ∧ psa.length = grid.length ∧ (∀ x ∈ psa, 0 ≤ x) ∧
      (grid.head? = some 0 → psa.head? = some (maxAbs ag)) := by
  simp only [newmarkAnalyzer] at h
  split at h
  · exact absurd h (by simp)
  · split at h
    · exact absurd h (by simp)
    · injection h with h
      injection h with h1 h2
      subst h1
      subst h2
      refine ⟨rfl, by simp, ?_, ?_⟩
      · intro x hx
        obtain ⟨T, _, rfl⟩ := List.mem_map.mp hx
        exact psaOrdinate_nonneg twoPi cfg dt ag T
      · intro h0
        cases grid with
        | nil => simp at h0
        | cons t rest =>
            have ht : t = 0 := by simpa using h0
            subst ht
            simp [psaOrdinate]

/-- Witness for C3: the stable default parameters on the grid `[0]` and the
series `[1, -2]`, whose PGA is `2`. -/
theorem newmarkAnalyzer_spectrum_shape_witness :
    ((0 : ℚ) ≤ 2) ∧ [(2 : ℚ)].head? = some (maxAbs [1, -2]) := by
  have h := newmarkAnalyzer_spectrum_shape (628 / 100)
    ⟨1 / 20, 1 / 2, 1 / 4, false⟩ (1 / 100) [0] [1, -2] [0] [2]
    (by norm_num [newmarkAnalyzer, stableNewmarkParams, validPeriodGrid, psaOrdinate,
      maxAbs])
  exact ⟨h.2.2.1 2 (by simp), h.2.2.2 (by simp)⟩

/-- Claim C7: spec-modelled — whenever the configured Newmark parameters lie
outside the unconditionally stable region (`β ≥ 1/4`, `γ ≥ 1/2`) and the
stability policy was not overridden, the Newmark analyzer fails with the
invalid-integration-parameters error. -/
theorem newmarkAnalyzer_unstable_params_error (twoPi : ℚ) (cfg : NewmarkConfig)
    (dt : ℚ) (grid ag : List ℚ) (hov : cfg.overrideStability = false)
    (hbg : cfg.beta < 1 / 4 ∨ cfg.gamma < 1 / 2) :
    newmarkAnalyzer twoPi cfg dt grid ag = .error .invalidIntegrationParameters := by
  have hstable : stableNewmarkParams cfg.gamma cfg.beta = false := by
    unfold stableNewmarkParams
    rcases hbg with hb | hg
    · rw [decide_eq_false (not_le.mpr hb)]
      simp
    · rw [decide_eq_false (not_le.mpr hg)]
      simp
  simp [newmarkAnalyzer, hstable, hov]

/-- Witness for C7: `newmark_beta = 0` with the override flag unset is
rejected. -/
theorem newmarkAnalyzer_unstable_params_error_witness :
    newmarkAnalyzer (628 / 100) ⟨1 / 20, 1 / 2, 0, false⟩ (1 / 100) [0] [1] =
      .error .invalidIntegrationParameters :=
  newmarkAnalyzer_unstable_params_error _ _ _ _ _ rfl (Or.inl (by norm_num))

theorem rotatedSeries_one_zero (h1 h2 : List ℚ) (hlen : h1.length = h2.length) :
    rotatedSeries 1 0 h1 h2 = h1 := by
  induction h1 generalizing h2 with
  | nil => rfl
  | cons x xs ih =>
      cases h2 with
      | nil => simp at hlen
      | cons y ys =>
          have htail := ih ys (by simpa using hlen)
          simp only [rotatedSeries] at htail
          show (x * 1 + y * 0) :: List.zipWith (fun x y => x * 1 + y * 0) xs ys = x :: xs
          rw [htail]
          norm_num

/-- Claim C6: spec-modelled — rotating a two-channel signal by 0° reproduces
H1 exactly (`H1·cos 0 + H2·sin 0 = H1`, the direction pair being `(1, 0)`),
so the per-angle spectral curve at 0° coincides with H1's own single-channel
Newmark spectrum at every period of the grid, and the full analyzer output on
the rotated series equals that on H1 (exact in rational arithmetic). -/
theorem rotd_angle_zero_reproduces_H1 (twoPi : ℚ) (cfg : NewmarkConfig) (dt : ℚ)
    (grid h1 h2 : List ℚ) (hlen : h1.length = h2.length) :
    rotatedSeries 1 0 h1 h2 = h1 ∧
      grid.map (psaOrdinate twoPi cfg dt (rotatedSeries 1 0 h1 h2)) =
        grid.map (psaOrdinate twoPi cfg dt h1) ∧
      newmarkAnalyzer twoPi cfg dt grid (rotatedSeries 1 0 h1 h2) =
        newmarkAnalyzer twoPi cfg dt grid h1 := by
  have hr := rotatedSeries_one_zero h1 h2 hlen
  exact ⟨hr, by rw [hr], by rw [hr]⟩

/-- Witness for C6 on the two-sample channels `[1, 2]` and `[3, 4]`. -/
theorem rotd_angle_zero_reproduces_H1_witness :
    rotatedSeries 1 0 [1, 2] [3, 4] = [1, 2] ∧
      [(0 : ℚ)].map (psaOrdinate (628 / 100) ⟨1 / 20, 1 / 2, 1 / 4, false⟩ (1 / 100)
          (rotatedSeries 1 0 [1, 2] [3, 4])) =
        [(0 : ℚ)].map (psaOrdinate (628 / 100) ⟨1 / 20, 1 / 2, 1 / 4, false⟩ (1 / 100)
          [1, 2]) ∧
      newmarkAnalyzer (628 / 100) ⟨1 / 20, 1 / 2, 1 / 4, false⟩ (1 / 100) [0]
          (rotatedSeries 1 0 [1, 2] [3, 4]) =
        newmarkAnalyzer (628 / 100) ⟨1 / 20, 1 / 2, 1 / 4, false⟩ (1 / 100) [0] [1, 2] :=
  rotd_angle_zero_reproduces_H1 (628 / 100) ⟨1 / 20, 1 / 2, 1 / 4, false⟩ (1 / 100)
    [0] [1, 2] [3, 4] rfl

theorem le_foldl_max (l : List ℚ) (s : ℚ) : s ≤ l.foldl max s := by
  induction l generalizing s with
  | nil => simp
  | cons x xs ih => exact le_trans (le_max_left s x) (ih _)

theorem foldl_max_of_mem {y : ℚ} {l : List ℚ} (hy : y ∈ l) :
    ∀ s : ℚ, y ≤ l.foldl max s := by
  induction l with
  | nil => exact absurd hy (List.not_mem_nil y)
  | cons x xs ih =>
      intro s
      rcases List.mem_cons.mp hy with h | h
      · subst h
        exact le_trans (le_max_right s y) (le_foldl_max xs _)
      · exact ih h _

theorem le_listMax_of_mem {y : ℚ} {l : List ℚ} (hy : y ∈ l) : y ≤ listMax l :=
  foldl_max_of_mem hy 0

theorem median_le_listMax (l : List ℚ) (hne : l ≠ []) : median l ≤ listMax l := by
  have hperm := List.perm_insertionSort (α := ℚ) (· ≤ ·) l
  have hlen : (List.insertionSort (· ≤ ·) l).length = l.length := hperm.length_eq
  have hpos : 0 < l.length := List.length_pos.mpr hne
  have hmem : ∀ i, i < l.length → (List.insertionSort (· ≤ ·) l).getD i 0 ≤ listMax l := by
    intro i hi
    have hi' : i < (List.insertionSort (· ≤ ·) l).length := by omega
    rw [List.getD_eq_getElem?_getD, List.getElem?_eq_getElem hi']
    exact le_listMax_of_mem (hperm.mem_iff.mp (List.getElem_mem hi'))
  simp only [median]
  split
  · exact hmem _ (Nat.div_lt_self hpos (by norm_num))
  · have h1 := hmem (l.length / 2 - 1) (by omega)
    have h2 := hmem (l.length / 2) (Nat.div_lt_self hpos (by norm_num))
    linarith

theorem rotd50At_le_rotd100At (twoPi : ℚ) (cfg : NewmarkConfig) (dt : ℚ)
    (dirs : List (ℚ × ℚ)) (h1 h2 : List ℚ) (hdirs : dirs ≠ []) (T : ℚ) :
    rotd50At twoPi cfg dt dirs h1 h2 T ≤ rotd100At twoPi cfg dt dirs h1 h2 T := by
  unfold rotd50At rotd100At
  apply median_le_listMax
  intro hc
  exact hdirs (List.map_eq_nil_iff.mp hc)

/-- Claim C2: spec-modelled — for every two-channel input and every period of
the grid, a successful RotD run satisfies `RotD100(T) ≥ RotD50(T)`: per
period, RotD50 is the median and RotD100 the maximum of the per-angle
spectral values over the (non-empty) angular grid, and a median never exceeds
a maximum. -/
theorem rotdAnalyzer_rotd100_ge_rotd50 (twoPi : ℚ) (cfg : NewmarkConfig) (dt : ℚ)
    (dirs : List (ℚ × ℚ)) (grid h1 h2 ts g50 g100 : List ℚ) (hdirs : dirs ≠ [])
    (h : rotdAnalyzer twoPi cfg dt dirs grid h1 h2 = .ok (ts, g50, g100))
    (i : ℕ) (hi : i < ts.length) :
    g50.getD i 0 ≤ g100.getD i 0 := by
  simp only [rotdAnalyzer] at h
  split at h
  · exact absurd h (by simp)
  · injection h with h
    injection h with h1 h23
    injection h23 with h2 h3
    subst h1
    subst h2
    subst h3
    have hgd : ∀ f : ℚ → ℚ, (grid.map f).getD i 0 = f (grid.getD i 0) := by
      intro f
      have hi' : i < grid.length := by simpa using hi
      rw [List.getD_eq_getElem?_getD, List.getElem?_map, List.getElem?_eq_getElem hi',
        List.getD_eq_getElem?_getD, List.getElem?_eq_getElem hi']
      rfl
    rw [hgd, hgd]
    exact rotd50At_le_rotd100At twoPi cfg dt dirs h1 h2 hdirs _

/-- Witness for C2: one angle `(cos θ, sin θ) = (1, 0)`, the grid `[0]` and
the unit channels `[1]`, `[1]`, where both curves evaluate to `[1]`. -/
theorem rotdAnalyzer_rotd100_ge_rotd50_witness :
    ([(1 : ℚ)]).getD 0 0 ≤ ([(1 : ℚ)]).getD 0 0 :=
  rotdAnalyzer_rotd100_ge_rotd50 (628 / 100) ⟨1 / 20, 1 / 2, 1 / 4, false⟩ (1 / 100)
    [(1, 0)] [0] [1] [1] [0] [1] [1] (by simp)
    (by norm_num [rotdAnalyzer, rotd50At, rotd100At, rotdValuesAt, rotatedSeries,
      psaOrdinate, median, listMax, maxAbs, List.insertionSort, List.orderedInsert])
    0 (by norm_num)

/-- Claim C8: spec-modelled — the baseline corrector fails with the
insufficient-data error on every series shorter than `degree + 1` samples,
and on every series of at least `degree + 1` samples it returns a corrected
series of exactly the input's length. -/
theorem baselineCorrect_insufficient_or_length (degree : ℕ) (dt : ℚ) (a : List ℚ) :
    (a.length < degree + 1 → baselineCorrect degree dt a = .error .insufficientData) ∧
      (degree + 1 ≤ a.length →
        ∃ out, baselineCorrect degree dt a = .ok out ∧ out.length = a.length) := by
  constructor
  · intro hlt
    simp only [baselineCorrect, if_pos hlt]
  · intro hge
    have hnlt : ¬ a.length < degree + 1 := not_lt.mpr hge
    refine ⟨List.zipWith
      (fun x t => x - polyEval
        (polyfit degree (List.map (fun (i : ℕ) => (i : ℚ) * dt) (List.range a.length)) a) t)
      a (List.map (fun (i : ℕ) => (i : ℚ) * dt) (List.range a.length)), ?_, ?_⟩
    · simp only [baselineCorrect, if_neg hnlt]
    · rw [List.length_zipWith, List.length_map, List.length_range, min_self]

/-- Witness for C8: a 1-sample series is too short for a linear fit, and a
3-sample series is corrected to a series of length 3. -/
theorem baselineCorrect_insufficient_or_length_witness :
    baselineCorrect 1 1 [5] = .error .insufficientData ∧
      (baselineCorrect 1 (1 / 10) [1, 2, 3]).map List.length = .ok 3 := by
  refine ⟨(baselineCorrect_insufficient_or_length 1 1 [5]).1 (by norm_num), ?_⟩
  obtain ⟨out, ho, hl⟩ :=
    (baselineCorrect_insufficient_or_length 1 (1 / 10) [1, 2, 3]).2 (by norm_num)
  rw [ho]
  simp [Except.map, hl]

/-! ## Evaluation of the example pipeline run, stage by stage -/

set_option maxHeartbeats 1000000 in
theorem baselineCorrect_exH1_eval :
    baselineCorrect 1 (1 / 100) [0, 1, 0] = .ok [-1/3, 2/3, -1/3] := by
  norm_num [baselineCorrect, polyfit, polyEval, gaussSolve, gaussForward, gaussFwdAux,
    backSub, dotList, List.range_succ, List.range_zero]

set_option maxHeartbeats 1000000 in
theorem baselineCorrect_exH2_eval :
    baselineCorrect 1 (1 / 100) [1, 0, 1] = .ok [1/3, -2/3, 1/3] := by
  norm_num [baselineCorrect, polyfit, polyEval, gaussSolve, gaussForward, gaussFwdAux,
    backSub, dotList, List.range_succ, List.range_zero]

set_option maxHeartbeats 1000000 in
theorem ariasAnalyzer_exH1_eval :
    ariasAnalyzer (16 / 100 * 981 ^ 2) (1 / 100) [-1/3, 2/3, -1/3] =
      .ok exampleAriasResult := by
  norm_num [ariasAnalyzer, ariasCumulative, ariasCumAux, exampleAriasResult,
    List.findIdx, List.findIdx.go]

set_option maxHeartbeats 1000000 in
theorem ariasAnalyzer_exH2_eval :
    ariasAnalyzer (16 / 100 * 981 ^ 2) (1 / 100) [1/3, -2/3, 1/3] =
      .ok exampleAriasResult := by
  norm_num [ariasAnalyzer, ariasCumulative, ariasCumAux, exampleAriasResult,
    List.findIdx, List.findIdx.go]

set_option maxHeartbeats 1000000 in
theorem fourierAnalyzer_exH1_eval :
    fourierAnalyzer (1 / 100) (fun _ => 0) 5 (1 / 10) [-1/3, 2/3, -1/3] =
      exampleFourierResult := by
  norm_num [fourierAnalyzer, exampleFourierResult, listMax, List.range_succ,
    List.range_zero, List.insertionSort, List.orderedInsert, List.filter]

set_option maxHeartbeats 1000000 in
theorem fourierAnalyzer_exH2_eval :
    fourierAnalyzer (1 / 100) (fun _ => 0) 5 (1 / 10) [1/3, -2/3, 1/3] =
      exampleFourierResult := by
  norm_num [fourierAnalyzer, exampleFourierResult, listMax, List.range_succ,
    List.range_zero, List.insertionSort, List.orderedInsert, List.filter]

set_option maxHeartbeats 1000000 in
theorem newmarkAnalyzer_exH1_eval :
    newmarkAnalyzer (628 / 100)
      { dampingRatio := 1/20, gamma := 1/2, beta := 1/4, overrideStability := false }
      (1 / 100) [0] [-1/3, 2/3, -1/3] = .ok ([0], [2/3]) := by
  norm_num [newmarkAnalyzer, stableNewmarkParams, validPeriodGrid, psaOrdinate, maxAbs,
    abs_of_nonneg, abs_of_nonpos, sup_eq_max, max_def]

set_option maxHeartbeats 1000000 in
theorem newmarkAnalyzer_exH2_eval :
    newmarkAnalyzer (628 / 100)
      { dampingRatio := 1/20, gamma := 1/2, beta := 1/4, overrideStability := false }
      (1 / 100) [0] [1/3, -2/3, 1/3] = .ok ([0], [2/3]) := by
  norm_num [newmarkAnalyzer, stableNewmarkParams, validPeriodGrid, psaOrdinate, maxAbs,
    abs_of_nonneg, abs_of_nonpos, sup_eq_max, max_def]

set_option maxHeartbeats 1000000 in
theorem rotdAnalyzer_ex_eval :
    rotdAnalyzer (628 / 100)
      { dampingRatio := 1/20, gamma := 1/2, beta := 1/4, overrideStability := false }
      (1 / 100) [(1, 0)] [0] [-1/3, 2/3, -1/3] [1/3, -2/3, 1/3] =
      .ok ([0], [2/3], [2/3]) := by
  norm_num [rotdAnalyzer, rotd50At, rotd100At, rotdValuesAt, rotatedSeries, psaOrdinate,
    median, listMax, maxAbs, List.insertionSort, List.orderedInsert,
    abs_of_nonneg, abs_of_nonpos, sup_eq_max, max_def]

set_option maxHeartbeats 1000000 in
theorem pipeline_example_eval :
    pipeline exampleConfig ("APED") (1 / 100) exampleChans (fun _ => 0) =
      .ok exampleAgg := by
  simp only [pipeline, baselineStage, ariasStage, fourierStage, newmarkStage, rotdStage,
    exampleConfig, exampleChans, exampleAgg, mapChannelsM,
    baselineCorrect_exH1_eval, baselineCorrect_exH2_eval, ariasAnalyzer_exH1_eval,
    ariasAnalyzer_exH2_eval, fourierAnalyzer_exH1_eval, fourierAnalyzer_exH2_eval,
    newmarkAnalyzer_exH1_eval, newmarkAnalyzer_exH2_eval, Bind.bind, Except.bind,
    Except.map, pure, Except.pure, Option.getD, List.map_cons, List.map_nil, if_true,
    if_false, Bool.false_eq_true, ite_true, ite_false]

set_option maxHeartbeats 1000000 in
theorem pipeline_example_full_eval :
    pipeline exampleConfigFull ("APED") (1 / 100) exampleChans (fun _ => 0) =
      .ok exampleAggFull := by
  simp only [pipeline, baselineStage, ariasStage, fourierStage, newmarkStage, rotdStage,
    exampleConfigFull, exampleConfig, exampleChans, exampleAggFull,
    exampleAgg, mapChannelsM, baselineCorrect_exH1_eval, baselineCorrect_exH2_eval,
    ariasAnalyzer_exH1_eval, ariasAnalyzer_exH2_eval, fourierAnalyzer_exH1_eval,
    fourierAnalyzer_exH2_eval, newmarkAnalyzer_exH1_eval, newmarkAnalyzer_exH2_eval,
    List.lookup, Bind.bind, Except.bind, Except.map, pure, Except.pure, Option.getD,
    List.map_cons, List.map_nil, if_true, if_false, Bool.false_eq_true, ite_true,
    ite_false]
  have h12 : (("H1" : String) == "H2") = false := by decide
  have h21 : (("H2" : String) == "H1") = false := by decide
  simp only [beq_self_eq_true, h12, h21, rotdAnalyzer_ex_eval]

theorem exceptMap_some_ok {α : Type} {X : Except AnalysisError α} {r : Option α}
    (h : X.map some = .ok r) : r.isSome = true := by
  cases X with
  | error e => simp [Except.map] at h
  | ok c =>
      simp only [Except.map, Except.ok.injEq] at h
      subst h
      simp

theorem baselineStage_isSome {cfg : Config} {dt : ℚ} {chans : List (String × List ℚ)}
    {r : Option (List (String × List ℚ))} (h : baselineStage cfg dt chans = .ok r) :
    r.isSome = cfg.apply_baseline_correction := by
  unfold baselineStage at h
  cases hb : cfg.apply_baseline_correction with
  | false =>
      rw [hb] at h
      simp only [Bool.false_eq_true, if_false, Except.ok.injEq] at h
      subst h
      simp
  | true =>
      rw [hb] at h
      simp only [if_true] at h
      exact exceptMap_some_ok h

theorem ariasStage_isSome {cfg : Config} {dt : ℚ} {working : List (String × List ℚ)}
    {r : Option (List (String × AriasResult))} (h : ariasStage cfg dt working = .ok r) :
    r.isSome = cfg.apply_arias_analysis := by
  unfold ariasStage at h
  cases hb : cfg.apply_arias_analysis with
  | false =>
      rw [hb] at h
      simp only [Bool.false_eq_true, if_false, Except.ok.injEq] at h
      subst h
      simp
  | true =>
      rw [hb] at h
      simp only [if_true] at h
      exact exceptMap_some_ok h

theorem fourierStage_isSome {cfg : Config} {dt : ℚ} {amp : ℕ → ℚ}
    {working : List (String × List ℚ)} :
    (fourierStage cfg dt amp working).isSome = cfg.apply_fourier_analysis := by
  unfold fourierStage
  cases hb : cfg.apply_fourier_analysis <;> simp [hb]

theorem newmarkStage_isSome {cfg : Config} {dt : ℚ} {working : List (String × List ℚ)}
    {r : Option (List (String × (List ℚ × List ℚ)))}
    (h : newmarkStage cfg dt working = .ok r) :
    r.isSome = cfg.compute_newmark_spectra := by
  unfold newmarkStage at h
  cases hb : cfg.compute_newmark_spectra with
  | false =>
      rw [hb] at h
      simp only [Bool.false_eq_true, if_false, Except.ok.injEq] at h
      subst h
      simp
  | true =>
      rw [hb] at h
      simp only [if_true] at h
      exact exceptMap_some_ok h

theorem rotdStage_isSome {cfg : Config} {dt : ℚ} {working : List (String × List ℚ)}
    {r : Option (List ℚ × List ℚ × List ℚ)} (h : rotdStage cfg dt working = .ok r) :
    r.isSome = cfg.compute_rotd := by
  unfold rotdStage at h
  cases hb : cfg.compute_rotd with
  | false =>
      rw [hb] at h
      simp only [Bool.false_eq_true, if_false, Except.ok.injEq] at h
      subst h
      simp
  | true =>
      rw [hb] at h
      simp only [if_true] at h
      split at h
      · exact exceptMap_some_ok h
      · exact absurd h (by simp)

/-- Claim C9, counterexample: under the notebook's own configuration
(`'compute_rotd': False`) the pipeline succeeds yet produces an aggregate
with no RotD result — the slot the notebook's plotting cell guards with a
`KeyError` handler — so the aggregate does not own one result from every
analyzer. -/
theorem pipeline_disabled_rotd_absent_cex :
    pipeline exampleConfig ("APED") (1 / 100) exampleChans (fun _ => 0) =
        .ok exampleAgg ∧
      exampleAgg.rotd = none ∧ exampleAgg.arias.isSome = true :=
  ⟨pipeline_example_eval, rfl, rfl⟩

/-- Claim C9, amended: spec-modelled — every aggregate the pipeline returns
owns the raw signals and exactly the analyzer results whose stages were
enabled in the configuration: each of the five result slots is filled if and
only if the corresponding stage flag is set (with the notebook's
`compute_rotd = false` the RotD slot is empty).  The aggregate is a value
assembled once from the stage results; re-running a stage amounts to running
the pipeline again with the corresponding flag set. -/
theorem pipeline_stage_ownership (cfg : Config) (name : String) (dt : ℚ)
    (chans : List (String × List ℚ)) (amp : ℕ → ℚ) (agg : EarthquakeSignalAgg)
    (h : pipeline cfg name dt chans amp = .ok agg) :
    agg.signals = chans ∧
      agg.corrected.isSome = cfg.apply_baseline_correction ∧
      agg.arias.isSome = cfg.apply_arias_analysis ∧
      agg.fourier.isSome = cfg.apply_fourier_analysis ∧
      agg.newmark_spectra.isSome = cfg.compute_newmark_spectra ∧
      agg.rotd.isSome = cfg.compute_rotd := by
  simp only [pipeline] at h
  obtain ⟨corrected, hc, h⟩ := exceptBind_ok h
  obtain ⟨ariasR, ha, h⟩ := exceptBind_ok h
  obtain ⟨spectraR, hs, h⟩ := exceptBind_ok h
  obtain ⟨rotdR, hr, h⟩ := exceptBind_ok h
  simp only [pure, Except.pure, Except.ok.injEq] at h
  subst h
  exact ⟨rfl, baselineStage_isSome hc, ariasStage_isSome ha, fourierStage_isSome,
    newmarkStage_isSome hs, rotdStage_isSome hr⟩

/-- Witness for the amended C9: the example run with every stage enabled
fills every slot. -/
theorem pipeline_stage_ownership_witness :
    exampleAggFull.signals = exampleChans ∧
      exampleAggFull.corrected.isSome = exampleConfigFull.apply_baseline_correction ∧
      exampleAggFull.arias.isSome = exampleConfigFull.apply_arias_analysis ∧
      exampleAggFull.fourier.isSome = exampleConfigFull.apply_fourier_analysis ∧
      exampleAggFull.newmark_spectra.isSome = exampleConfigFull.compute_newmark_spectra ∧
      exampleAggFull.rotd.isSome = exampleConfigFull.compute_rotd :=
  pipeline_stage_ownership exampleConfigFull ("APED") (1 / 100) exampleChans
    (fun _ => 0) exampleAggFull pipeline_example_full_eval

/-- Claim C10: spec-modelled — every aggregate the pipeline returns exposes
its results as string-keyed mappings with the fixed keys the notebook reads:
each per-channel Arias dictionary carries `t_start`, `t_end`, `IA_total` and
`pot_dest`; each Fourier dictionary carries `dominant_periods`; each Newmark
spectrum dictionary carries `T` and `PSa`; and the single RotD dictionary
carries `T` and `ROTD100`. -/
theorem pipeline_result_dict_keys (cfg : Config) (name : String) (dt : ℚ)
    (chans : List (String × List ℚ)) (amp : ℕ → ℚ) (agg : EarthquakeSignalAgg)
    (_h : pipeline cfg name dt chans amp = .ok agg) :
    (∀ ch r, (agg.arias.getD []).lookup ch = some r →
       ((ariasDict r).lookup ("t_start")).isSome = true ∧
       ((ariasDict r).lookup ("t_end")).isSome = true ∧
       ((ariasDict r).lookup ("IA_total")).isSome = true ∧
       ((ariasDict r).lookup ("pot_dest")).isSome = true) ∧
    (∀ ch r, (agg.fourier.getD []).lookup ch = some r →
       ((fourierDict r).lookup ("dominant_periods")).isSome = true) ∧
    (∀ ch r, (agg.newmark_spectra.getD []).lookup ch = some r →
       ((spectrumDict r).lookup ("T")).isSome = true ∧
       ((spectrumDict r).lookup ("PSa")).isSome = true) ∧
    (∀ r, agg.rotd = some r →
       ((rotdDict r).lookup ("T")).isSome = true ∧
       ((rotdDict r).lookup ("ROTD100")).isSome = true) := by
  refine ⟨fun ch r _ => ⟨?_, ?_, ?_, ?_⟩, fun ch r _ => ?_, fun ch r _ => ⟨?_, ?_⟩,
      fun r _ => ⟨?_, ?_⟩⟩ <;>
    simp [ariasDict, fourierDict, spectrumDict, rotdDict, List.lookup]

/-- Witness for C10 on the fully-enabled example run: the H1 dictionaries of
every stage and the RotD dictionary expose the notebook's keys. -/
theorem pipeline_result_dict_keys_witness :
    ((ariasDict exampleAriasResult).lookup ("t_start")).isSome = true ∧
      ((ariasDict exampleAriasResult).lookup ("t_end")).isSome = true ∧
      ((ariasDict exampleAriasResult).lookup ("IA_total")).isSome = true ∧
      ((ariasDict exampleAriasResult).lookup ("pot_dest")).isSome = true ∧
      ((fourierDict exampleFourierResult).lookup ("dominant_periods")).isSome = true ∧
      ((spectrumDict ([0], [2/3])).lookup ("T")).isSome = true ∧
      ((spectrumDict ([0], [2/3])).lookup ("PSa")).isSome = true ∧
      ((rotdDict ([0], [2/3], [2/3])).lookup ("T")).isSome = true ∧
      ((rotdDict ([0], [2/3], [2/3])).lookup ("ROTD100")).isSome = true := by
  obtain ⟨hA, hF, hS, hR⟩ := pipeline_result_dict_keys exampleConfigFull ("APED")
    (1 / 100) exampleChans (fun _ => 0) exampleAggFull pipeline_example_full_eval
  have ha := hA ("H1") exampleAriasResult
    (by simp [exampleAggFull, exampleAgg, List.lookup])
  have hf := hF ("H1") exampleFourierResult
    (by simp [exampleAggFull, exampleAgg, List.lookup])
  have hs := hS ("H1") ([0], [2/3])
    (by simp [exampleAggFull, exampleAgg, List.lookup])
  have hr := hR ([0], [2/3], [2/3]) rfl
  exact ⟨ha.1, ha.2.1, ha.2.2.1, ha.2.2.2, hf, hs.1, hs.2, hr.1, hr.2⟩

end EqSig
